import Mathlib

/-!
Shallow embedding of `src/alpaca_api/download.py` (class `AlpacaRequester`):
the URL builder `make_bars_url`, the CSV sink `write_bars` and the paginated
rate-limit-aware fetch loop `get_bars`.  HTTP responses are scripted: a run is
driven by a finite list of `Resp` values, one per issued request, and produces
an event trace (requests, sink writes, sleeps, progress ticks), a final file
system, and an outcome (normal return, raised Python error, or script
exhaustion, the model artifact for a run that would keep requesting).
-/

namespace AlpacaApi

/-- A Python value as it occurs in a bars record: strings, ints, floats
(rationals), `None`/`NaN`, and the result of `pd.to_datetime` on a value. -/
inductive Val where
  | s (v : String)
  | i (n : Int)
  | q (r : ℚ)
  | nan
  | time (v : String)
deriving DecidableEq, Repr

/-- One record of a bars table: an ordered dict from field name to value. -/
abbrev Record := List (String × Val)

/-- Field names of a record, in order (dict key order). -/
def recKeys (r : Record) : List String := r.map Prod.fst

/-- Membership test for a key in a record (Python `k in d`). -/
def hasKey (r : Record) (k : String) : Bool := r.any (fun kv => kv.1 = k)

/-- Read a field of a record; a missing field reads as `NaN`, matching the
value a pandas column holds for a row that lacks the key. -/
def getField (r : Record) (k : String) : Val :=
  match r.find? (fun kv => kv.1 = k) with
  | some kv => kv.2
  | none => Val.nan

/-- Assign a field of a record (pandas column assignment restricted to one
row): replace the value in place when the key exists, append it otherwise. -/
def setField (r : Record) (k : String) (v : Val) : Record :=
  if hasKey r k then r.map (fun kv => if kv.1 = k then (k, v) else kv)
  else r ++ [(k, v)]

/-- Model of `pd.to_datetime` on one cell: a string becomes a timestamp. -/
def toDatetime : Val → Val
  | .s v => .time v
  | v => v

/-- Does the data frame built from `df` have a column `c`?  pandas takes the
union of the record keys, so the column exists iff some record has the key. -/
def hasCol (df : List Record) (c : String) : Bool := df.any (fun r => hasKey r c)

/-- Insert a column name keeping first-occurrence order (pandas union). -/
def insertCol (cs : List String) (c : String) : List String :=
  if c ∈ cs then cs else cs ++ [c]

/-- Column names of the data frame built from `df`, in first-occurrence
order. -/
def dfCols (df : List Record) : List String :=
  df.foldl (fun acc r => (recKeys r).foldl insertCol acc) []

/-- One line of a CSV file as `to_csv` produces it: a header of column names
or a data row of cells. -/
inductive Line where
  | header (cols : List String)
  | row (cells : List Val)
deriving DecidableEq, Repr

/-- The local file system: path to file content.  The code only ever asks
whether the file exists with positive size (`has_rows`), and writing with
mode `w` to a missing or empty file coincides, so missing and empty files are
both the empty content. -/
def FS : Type := String → List Line

/-- A Python exception as raised by the code under test. -/
inductive PyErr where
  | valueError (msg : String)
  | keyError (key : String)
  | indexError
deriving DecidableEq, Repr

/-- An observable action of a run: an HTTP GET, one `to_csv` call (with the
augmented rows it appends), one `time.sleep`, one `pbar.update(1)`. -/
inductive Ev where
  | request (url : String)
  | write (path : String) (rows : List Record)
  | sleep (secs : ℚ)
  | pageTick
deriving DecidableEq, Repr

/-- How a run ends: normal return, a raised exception, or the model artifact
for a run that needs a response the script no longer provides. -/
inductive Outcome where
  | ok
  | err (e : PyErr)
  | scriptEnded
deriving DecidableEq, Repr

/-- The requester object: credentials, auth headers, the bars-path template,
and the set of open progress bars (modelled by its size). -/
structure AlpacaRequester where
  apiKey : String
  apiSecret : String
  authHeaders : List (String × String)
  barsPath : String
  pbars : Nat
deriving DecidableEq, Repr

/-- One scripted HTTP response: status code, the three optional rate-limit
headers (as parsed ints; `none` is an absent header), the parsed JSON body
(`bars` mapping and `next_page_token`), the raw text, and the value
`time.time()` returns if it is read in the wait check before this request. -/
structure Resp where
  status : Nat
  limitH : Option Int
  remainingH : Option Int
  resetH : Option Int
  bars : List (String × List Record)
  next : Option String
  text : String
  tnow : ℚ
deriving DecidableEq, Repr

/-- `str.format` on the bars-path template: the placeholder is replaced by the
ticker name. -/
def formatPath (tpl ticker : String) : String := tpl.replace "\x7b\x7d" ticker

/-- Dict lookup in an options mapping. -/
def lookupStr (l : List (String × String)) (k : String) : Option String :=
  match l.find? (fun kv => kv.1 = k) with
  | some kv => some kv.2
  | none => none

/-- `AlpacaRequester.make_bars_url`.  `kwargs` is the keyword-argument dict,
which Python builds afresh at every call (`**api_options` copies), so the pops
inside are invisible to the caller: a missing `limit` defaults to 10000, a
`sort` entry is dropped from the query string. -/
def make_bars_url (symbols : List String) (timeframe : String)
    (kwargs : List (String × String)) : String :=
  let k1 := if kwargs.any (fun kv => kv.1 = "limit") then kwargs
            else kwargs ++ [("limit", "10000")]
  let k2 := k1.filter (fun kv => kv.1 ≠ "sort")
  "https://data.alpaca.markets/v2/stocks/bars?symbols="
    ++ String.intercalate "%2C" symbols ++ "&timeframe=" ++ timeframe
    ++ String.join (k2.map (fun kv => "&" ++ kv.1 ++ "=" ++ kv.2))

/-- The value written into the `next_page_token` provenance column. -/
def optVal : Option String → Val
  | some t => .s t
  | none => .nan

/-- The body of the per-ticker loop of `write_bars` acting on one record:
`df['t'] = pd.to_datetime(df['t'])`, `df['url'] = download_url`,
`df['next_page_token'] = next_page_token`. -/
def augmentRec (url : String) (tok : Option String) (r : Record) : Record :=
  setField (setField (setField r "t" (toDatetime (getField r "t")))
    "url" (Val.s url)) "next_page_token" (optVal tok)

/-- The per-ticker summary `write_bars` returns: first and last timestamp and
the row count. -/
structure TickerOut where
  start : Val
  stop : Val
  count : Nat
deriving DecidableEq, Repr

/-- One iteration of the `write_bars` loop: build the data frame from
`entries` (raising `KeyError` at `df['t']` when no record has a `t` field),
augment it with the provenance columns, append it to the CSV at
`bars_path.format(ticker)` with a header iff the file is missing or empty,
then read `iloc[0]` and `iloc[-1]`.  Returns the file system, the emitted
events, and the summary or the raised error. -/
def writeTicker (fs : FS) (tpl url : String) (tok : Option String)
    (ticker : String) (entries : List Record) :
    FS × List Ev × Except PyErr TickerOut :=
  let path := formatPath tpl ticker
  if hasCol entries "t" = false then (fs, [], .error (.keyError "t"))
  else
    let hasRows := !(fs path).isEmpty
    let df := entries.map (augmentRec url tok)
    let cols := dfCols df
    let lines := df.map (fun r => Line.row (cols.map (fun c => getField r c)))
    let fs' := fun p => if p = path then
        (if hasRows then fs path ++ lines else Line.header cols :: lines)
      else fs p
    match df with
    | [] => (fs', [Ev.write path df], .error .indexError)
    | first :: restDf =>
      (fs', [Ev.write path df],
        .ok ⟨getField first "t",
             getField ((first :: restDf).getLast (List.cons_ne_nil _ _)) "t",
             df.length⟩)

/-- `AlpacaRequester.write_bars`: iterate `writeTicker` over the bars mapping,
threading the file system; a raised error stops the iteration but keeps the
files already written. -/
def write_bars (fs : FS) (tpl : String) (bars : List (String × List Record))
    (url : String) (tok : Option String) :
    FS × List Ev × Except PyErr (List (String × TickerOut)) :=
  match bars with
  | [] => (fs, [], .ok [])
  | (tk, es) :: rest =>
    match writeTicker fs tpl url tok tk es with
    | (fs1, evs1, .error e) => (fs1, evs1, .error e)
    | (fs1, evs1, .ok out) =>
      match write_bars fs1 tpl rest url tok with
      | (fs2, evs2, res) =>
        (fs2, evs1 ++ evs2, res.map (fun outs => (tk, out) :: outs))

/-- The error message `raise ValueError(f"Error Status Code {code}: {text}")`
builds. -/
def statusMsg (code : Nat) (text : String) : String :=
  "Error Status Code " ++ toString code ++ ": " ++ text

/-- The fixed text of the 403 error message after the status code. -/
def authText : String :=
  "Authentication headers are missing or invalid. Make sure you authenticate your request with valid API credentials."

/-- The `while True` loop of `get_bars`.  `rem`/`rst` are the
`rate_limit_remaining`/`rate_limit_reset` ints of the last successful
response, `next` the current continuation token.  Order per iteration: break
on an absent token; else when `rem = 0` compute the wait
`(reset - time.time()) * 0.5` and sleep it (a negative wait makes
`time.sleep` raise `ValueError`); request `base&page_token=tok`; any non-200
status raises; parse the body, write the tables, bump the page counter, then
re-read the two rate-limit headers (`KeyError` when absent). -/
def runLoop (self : AlpacaRequester) (baseUrl : String) (rem rst : Int)
    (next : Option String) (fs : FS) (script : List Resp) :
    List Ev × FS × Outcome :=
  match next with
  | none => ([], fs, .ok)
  | some tok =>
    match script with
    | [] => ([], fs, .scriptEnded)
    | r :: rest =>
      let w : ℚ := ((rst : ℚ) - r.tnow) * (1/2)
      let pre : List Ev := if rem = 0 then [Ev.sleep w] else []
      if rem = 0 ∧ w < 0 then
        (pre, fs, .err (.valueError "sleep length must be non-negative"))
      else
        let url := baseUrl ++ "&page_token=" ++ tok
        let evs0 := pre ++ [Ev.request url]
        if r.status ≠ 200 then
          (evs0, fs, .err (.valueError (statusMsg r.status r.text)))
        else
          match write_bars fs self.barsPath r.bars url r.next with
          | (fs1, wEvs, .error e) => (evs0 ++ wEvs, fs1, .err e)
          | (fs1, wEvs, .ok _) =>
            let evs1 := evs0 ++ wEvs ++ [Ev.pageTick]
            match r.remainingH, r.resetH with
            | some rem', some rst' =>
              match runLoop self baseUrl rem' rst' r.next fs1 rest with
              | (evs2, fs2, oc) => (evs1 ++ evs2, fs2, oc)
            | none, _ => (evs1, fs1, .err (.keyError "X-RateLimit-Remaining"))
            | some _, none => (evs1, fs1, .err (.keyError "X-RateLimit-Reset"))

/-- The result of one `get_bars` call: the event trace, the final file
system, the outcome, the caller's `api_options` dict after the call (the
`pop("page_token")` mutates it in place), and the requester object after the
call (the close-pbars decorator empties the progress-bar set on every exit
path). -/
structure RunResult where
  trace : List Ev
  fs : FS
  outcome : Outcome
  options : List (String × String)
  requester : AlpacaRequester

/-- `AlpacaRequester.get_bars` driven by a response script.  It pops
`page_token` from the caller's `api_options`, builds the base URL from the
remaining options, appends the popped token to the initial URL when present,
and issues the initial request.  On 200 it ticks the progress bar, parses the
three rate-limit headers (`KeyError` when one is absent, in read order),
writes the first page, and enters `runLoop`.  On 429 it reads the three
headers (`KeyError` when absent), sleeps 5 seconds and retries itself on the
already-popped options, so a popped resume token is not reissued.  On 403 it
raises the fixed authentication `ValueError`; any other status raises
`ValueError` with the status and body text. -/
def get_bars (self : AlpacaRequester) (symbols : List String)
    (timeframe : String) (api_options : List (String × String)) (fs : FS)
    (script : List Resp) : RunResult :=
  let startTok := lookupStr api_options "page_token"
  let opts := api_options.filter (fun kv => kv.1 ≠ "page_token")
  let baseUrl := make_bars_url symbols timeframe opts
  let url := match startTok with
    | none => baseUrl
    | some t => baseUrl ++ "&page_token=" ++ t
  match script with
  | [] => ⟨[], fs, .scriptEnded, opts, {self with pbars := 0}⟩
  | r :: rest =>
    if r.status = 200 then
      let evs1 := [Ev.request url, Ev.pageTick]
      match r.limitH, r.remainingH, r.resetH with
      | none, _, _ =>
        ⟨evs1, fs, .err (.keyError "X-RateLimit-Limit"), opts,
          {self with pbars := 0}⟩
      | some _, none, _ =>
        ⟨evs1, fs, .err (.keyError "X-RateLimit-Remaining"), opts,
          {self with pbars := 0}⟩
      | some _, some _, none =>
        ⟨evs1, fs, .err (.keyError "X-RateLimit-Reset"), opts,
          {self with pbars := 0}⟩
      | some _, some rem, some rst =>
        match write_bars fs self.barsPath r.bars url r.next with
        | (fs1, wEvs, .error e) =>
          ⟨evs1 ++ wEvs, fs1, .err e, opts, {self with pbars := 0}⟩
        | (fs1, wEvs, .ok _) =>
          match runLoop self baseUrl rem rst r.next fs1 rest with
          | (evs2, fs2, oc) =>
            ⟨evs1 ++ wEvs ++ evs2, fs2, oc, opts, {self with pbars := 0}⟩
    else if r.status = 429 then
      match r.limitH, r.remainingH, r.resetH with
      | none, _, _ =>
        ⟨[Ev.request url], fs, .err (.keyError "X-RateLimit-Limit"), opts,
          {self with pbars := 0}⟩
      | some _, none, _ =>
        ⟨[Ev.request url], fs, .err (.keyError "X-RateLimit-Remaining"), opts,
          {self with pbars := 0}⟩
      | some _, some _, none =>
        ⟨[Ev.request url], fs, .err (.keyError "X-RateLimit-Reset"), opts,
          {self with pbars := 0}⟩
      | some _, some _, some _ =>
        match get_bars self symbols timeframe opts fs rest with
        | ⟨tr, fs', oc, opts', self'⟩ =>
          ⟨Ev.request url :: Ev.sleep 5 :: tr, fs', oc, opts', self'⟩
    else if r.status = 403 then
      ⟨[Ev.request url], fs, .err (.valueError (statusMsg r.status authText)),
        opts, {self with pbars := 0}⟩
    else
      ⟨[Ev.request url], fs, .err (.valueError (statusMsg r.status r.text)),
        opts, {self with pbars := 0}⟩

/-! ### Derived observations on traces and runs -/

/-- The URLs of the HTTP requests a trace contains, in order. -/
def requestUrls (tr : List Ev) : List String :=
  tr.filterMap (fun e => match e with | .request u => some u | _ => none)

/-- The target paths of the sink writes a trace contains, in order. -/
def writePaths (tr : List Ev) : List String :=
  tr.filterMap (fun e => match e with | .write p _ => some p | _ => none)

/-- How many HTTP requests a trace contains. -/
def numRequests (tr : List Ev) : Nat := (requestUrls tr).length

/-- The sink paths one page's `write_bars` call targets: one per table name. -/
def pagePaths (tpl : String) (r : Resp) : List String :=
  r.bars.map (fun p => formatPath tpl p.1)

/-- The write events a successful `write_bars` call emits: one per ticker. -/
def barsEvs (tpl url : String) (tok : Option String)
    (bars : List (String × List Record)) : List Ev :=
  bars.map (fun p => Ev.write (formatPath tpl p.1) (p.2.map (augmentRec url tok)))

/-- The base URL a `get_bars` call builds from the caller's options. -/
def baseUrlOf (symbols : List String) (timeframe : String)
    (opts : List (String × String)) : String :=
  make_bars_url symbols timeframe (opts.filter (fun kv => kv.1 ≠ "page_token"))

/-- The URL of the initial request of a `get_bars` call: the base URL, with
the popped resume token appended when the options carried one. -/
def initUrlOf (symbols : List String) (timeframe : String)
    (opts : List (String × String)) : String :=
  match lookupStr opts "page_token" with
  | none => baseUrlOf symbols timeframe opts
  | some t => baseUrlOf symbols timeframe opts ++ "&page_token=" ++ t

/-- The continuation tokens a successful loop consumes: the current one, then
those extracted from each page body in turn. -/
def tokensOf : Option String → List Resp → List String
  | none, _ => []
  | some _, [] => []
  | some t, r :: rest => t :: tokensOf r.next rest

/-- The event trace of a successful loop in closed form: per page one
request, the page's writes, one progress tick. -/
def loopTrace (tpl base : String) : Option String → List Resp → List Ev
  | none, _ => []
  | some _, [] => []
  | some t, r :: rest =>
    Ev.request (base ++ "&page_token=" ++ t) ::
      (barsEvs tpl (base ++ "&page_token=" ++ t) r.next r.bars
        ++ Ev.pageTick :: loopTrace tpl base r.next rest)

/-- `s` contains `sub` as a contiguous substring. -/
def containsStr (s sub : String) : Prop :=
  ∃ l r, s.data = l ++ sub.data ++ r

/-- A scripted response the fetch loop fully consumes: status 200, all three
rate-limit headers present, a nonzero remaining budget (so no wait is
computed), and every table of the body writable (some record has a `t`
field). -/
def pageOk (r : Resp) : Prop :=
  r.status = 200 ∧ r.limitH ≠ none ∧ r.remainingH ≠ none ∧
    r.remainingH ≠ some 0 ∧ r.resetH ≠ none ∧
    ∀ p ∈ r.bars, hasCol p.2 "t" = true

instance (r : Resp) : Decidable (pageOk r) := by
  unfold pageOk; infer_instance

/-- A script the loop consumes to a successful end starting from a given
token state: the state is absent exactly when the script is exhausted, and
each page is fully consumable, its body token driving the rest. -/
inductive ChainOk : Option String → List Resp → Prop where
  | nil : ChainOk none []
  | cons (t : String) (r : Resp) (rest : List Resp) :
      pageOk r → ChainOk r.next rest → ChainOk (some t) (r :: rest)

/-- A script prefix the loop consumes while always holding a token: from
token state `cur`, the pages are all fully consumable and leave token state
`out`. -/
inductive ChainPre : Option String → List Resp → Option String → Prop where
  | nil (cur : Option String) : ChainPre cur [] cur
  | cons (t : String) (r : Resp) (rest : List Resp) (out : Option String) :
      pageOk r → ChainPre r.next rest out → ChainPre (some t) (r :: rest) out

/-! ### Helper lemmas -/

theorem writeTicker_ok (fs : FS) (tpl url : String) (tok : Option String)
    (tk : String) (es : List Record) (h : hasCol es "t" = true) :
    ∃ fs' out, writeTicker fs tpl url tok tk es =
      (fs', [Ev.write (formatPath tpl tk) (es.map (augmentRec url tok))],
        Except.ok out) := by
  cases es with
  | nil => simp [hasCol] at h
  | cons e es' =>
    simp only [writeTicker, h, Bool.true_eq_false, if_false, List.map_cons]
    exact ⟨_, _, rfl⟩

theorem write_bars_ok (tpl url : String) (tok : Option String) :
    ∀ (bars : List (String × List Record)) (fs : FS),
      (∀ p ∈ bars, hasCol p.2 "t" = true) →
      ∃ fs' outs, write_bars fs tpl bars url tok =
        (fs', barsEvs tpl url tok bars, Except.ok outs) := by
  intro bars
  induction bars with
  | nil => intro fs _; exact ⟨fs, [], rfl⟩
  | cons p rest ih =>
    intro fs h
    obtain ⟨tk, es⟩ := p
    obtain ⟨fs1, out, h1⟩ := writeTicker_ok fs tpl url tok tk es
      (h (tk, es) (by simp))
    obtain ⟨fs2, outs, h2⟩ := ih fs1 (fun q hq => h q (by simp [hq]))
    refine ⟨fs2, (tk, out) :: outs, ?_⟩
    simp [write_bars, h1, h2, barsEvs, Except.map]

theorem runLoop_ok (self : AlpacaRequester) (base : String) :
    ∀ (script : List Resp) (next : Option String), ChainOk next script →
      ∀ (rem rst : Int), rem ≠ 0 → ∀ fs : FS,
      ∃ fs', runLoop self base rem rst next fs script =
        (loopTrace self.barsPath base next script, fs', .ok) := by
  intro script
  induction script with
  | nil =>
    intro next h rem rst hrem fs
    cases h
    exact ⟨fs, rfl⟩
  | cons r rest ih =>
    intro next h rem rst hrem fs
    cases h with
    | cons t _ _ hOk hChain =>
      obtain ⟨hst, hlim, hremH, hrem0, hrst, hbars⟩ := hOk
      obtain ⟨rem', hR⟩ := Option.ne_none_iff_exists'.mp hremH
      obtain ⟨rst', hS⟩ := Option.ne_none_iff_exists'.mp hrst
      have hrem' : rem' ≠ 0 := by
        intro hc; exact hrem0 (by rw [hR, hc])
      obtain ⟨fs1, outs, hw⟩ :=
        write_bars_ok self.barsPath (base ++ "&page_token=" ++ t) r.next
          r.bars fs hbars
      obtain ⟨fs2, hrec⟩ := ih r.next hChain rem' rst' hrem' fs1
      refine ⟨fs2, ?_⟩
      simp [runLoop, hrem, hst, hw, hR, hS, hrec, loopTrace]

/-- The event trace of a fully successful `get_bars` run in closed form:
initial request and tick, the first page's writes, then the loop blocks. -/
def fullTrace (tpl : String) (symbols : List String) (timeframe : String)
    (opts : List (String × String)) (r0 : Resp) (rest : List Resp) : List Ev :=
  Ev.request (initUrlOf symbols timeframe opts) :: Ev.pageTick ::
    (barsEvs tpl (initUrlOf symbols timeframe opts) r0.next r0.bars
      ++ loopTrace tpl (baseUrlOf symbols timeframe opts) r0.next rest)

theorem run_success (self : AlpacaRequester) (symbols : List String)
    (timeframe : String) (opts : List (String × String)) (fs : FS)
    (r0 : Resp) (rest : List Resp) (h0 : pageOk r0)
    (hc : ChainOk r0.next rest) :
    ∃ fs', get_bars self symbols timeframe opts fs (r0 :: rest) =
      ⟨fullTrace self.barsPath symbols timeframe opts r0 rest, fs', .ok,
        opts.filter (fun kv => kv.1 ≠ "page_token"),
        {self with pbars := 0}⟩ := by
  obtain ⟨hst, hlim, hremH, hrem0, hrst, hbars⟩ := h0
  obtain ⟨lim', hL⟩ := Option.ne_none_iff_exists'.mp hlim
  obtain ⟨rem', hR⟩ := Option.ne_none_iff_exists'.mp hremH
  obtain ⟨rst', hS⟩ := Option.ne_none_iff_exists'.mp hrst
  have hrem' : rem' ≠ 0 := fun hz => hrem0 (by rw [hR, hz])
  obtain ⟨fs1, outs, hw⟩ := write_bars_ok self.barsPath
    (initUrlOf symbols timeframe opts) r0.next r0.bars fs hbars
  obtain ⟨fs2, hrec⟩ := runLoop_ok self (baseUrlOf symbols timeframe opts)
    rest r0.next hc rem' rst' hrem' fs1
  refine ⟨fs2, ?_⟩
  simp [initUrlOf, baseUrlOf, lookupStr] at hw hrec
  simp [get_bars, hst, hL, hR, hS, hw, hrec, fullTrace, initUrlOf, baseUrlOf,
    lookupStr]

theorem requestUrls_append (a b : List Ev) :
    requestUrls (a ++ b) = requestUrls a ++ requestUrls b :=
  List.filterMap_append a b _

theorem writePaths_append (a b : List Ev) :
    writePaths (a ++ b) = writePaths a ++ writePaths b :=
  List.filterMap_append a b _

theorem requestUrls_cons_request (u : String) (tr : List Ev) :
    requestUrls (Ev.request u :: tr) = u :: requestUrls tr := rfl

theorem requestUrls_cons_write (p : String) (rows : List Record)
    (tr : List Ev) : requestUrls (Ev.write p rows :: tr) = requestUrls tr :=
  rfl

theorem requestUrls_cons_sleep (w : ℚ) (tr : List Ev) :
    requestUrls (Ev.sleep w :: tr) = requestUrls tr := rfl

theorem requestUrls_cons_tick (tr : List Ev) :
    requestUrls (Ev.pageTick :: tr) = requestUrls tr := rfl

theorem writePaths_cons_request (u : String) (tr : List Ev) :
    writePaths (Ev.request u :: tr) = writePaths tr := rfl

theorem writePaths_cons_write (p : String) (rows : List Record)
    (tr : List Ev) : writePaths (Ev.write p rows :: tr) = p :: writePaths tr :=
  rfl

theorem writePaths_cons_sleep (w : ℚ) (tr : List Ev) :
    writePaths (Ev.sleep w :: tr) = writePaths tr := rfl

theorem writePaths_cons_tick (tr : List Ev) :
    writePaths (Ev.pageTick :: tr) = writePaths tr := rfl

theorem barsEvs_cons (tpl url : String) (tok : Option String)
    (p : String × List Record) (bars : List (String × List Record)) :
    barsEvs tpl url tok (p :: bars) =
      Ev.write (formatPath tpl p.1) (p.2.map (augmentRec url tok)) ::
        barsEvs tpl url tok bars := rfl

theorem requestUrls_barsEvs (tpl url : String) (tok : Option String)
    (bars : List (String × List Record)) :
    requestUrls (barsEvs tpl url tok bars) = [] := by
  induction bars with
  | nil => rfl
  | cons p rest ih => rw [barsEvs_cons, requestUrls_cons_write]; exact ih

theorem writePaths_barsEvs (tpl url : String) (tok : Option String)
    (bars : List (String × List Record)) :
    writePaths (barsEvs tpl url tok bars) =
      bars.map (fun p => formatPath tpl p.1) := by
  induction bars with
  | nil => rfl
  | cons p rest ih => rw [barsEvs_cons, writePaths_cons_write, ih, List.map_cons]

theorem requestUrls_loopTrace (tpl base : String) :
    ∀ (script : List Resp) (next : Option String), ChainOk next script →
      requestUrls (loopTrace tpl base next script) =
        (tokensOf next script).map (fun t => base ++ "&page_token=" ++ t) := by
  intro script
  induction script with
  | nil => intro next h; cases h; rfl
  | cons r rest ih =>
    intro next h
    cases h with
    | cons t _ _ hOk hChain =>
      simp only [loopTrace, tokensOf, List.map_cons, requestUrls_cons_request,
        requestUrls_append, requestUrls_barsEvs, requestUrls_cons_tick,
        List.nil_append, ih r.next hChain]

theorem writePaths_loopTrace (tpl base : String) :
    ∀ (script : List Resp) (next : Option String), ChainOk next script →
      writePaths (loopTrace tpl base next script) =
        script.flatMap (pagePaths tpl) := by
  intro script
  induction script with
  | nil => intro next h; cases h; rfl
  | cons r rest ih =>
    intro next h
    cases h with
    | cons t _ _ hOk hChain =>
      simp only [loopTrace, List.flatMap_cons, writePaths_cons_request,
        writePaths_append, writePaths_barsEvs, writePaths_cons_tick,
        ih r.next hChain, pagePaths]

theorem tokensOf_length :
    ∀ (script : List Resp) (next : Option String), ChainOk next script →
      (tokensOf next script).length = script.length := by
  intro script
  induction script with
  | nil => intro next h; cases h; rfl
  | cons r rest ih =>
    intro next h
    cases h with
    | cons t _ _ hOk hChain => simp [tokensOf, ih r.next hChain]

/-! ### Concrete fixtures -/

/-- A requester fixture for concrete runs. -/
def self0 : AlpacaRequester :=
  ⟨"key", "secret",
    [("accept", "application/json"), ("APCA-API-KEY-ID", "key"),
      ("APCA-API-SECRET-KEY", "secret")],
    "bars/\x7b\x7d.csv", 0⟩

/-- The empty file system: no bars file exists yet. -/
def fs0 : FS := fun _ => []

/-- A one-record bars table row with the given timestamp. -/
def rec1 (ts : String) : Record := [("t", Val.s ts), ("o", Val.q 1)]

/-- A fully successful page whose body carries continuation token `t`. -/
def pageTok (t : String) : Resp :=
  ⟨200, some 200, some 100, some 0, [("AAPL", [rec1 "2024-01-01"])],
    some t, "", 0⟩

/-- A fully successful final page whose body carries the absent token. -/
def pageLast : Resp :=
  ⟨200, some 200, some 100, some 0, [("AAPL", [rec1 "2024-01-02"])],
    none, "", 0⟩

/-! ### Claim C1 -/

/-- C1 (amended): for a script of successful pages whose bodies carry
continuation tokens `t0, …, tn` followed by a final page carrying the absent
token — `n + 2` pages in all, encoded by `ChainOk` — `get_bars` returns
normally, issues exactly one request per page (so `n + 2` requests, not
`n + 1`), and calls the sink writer exactly once per page per table name, in
page order. -/
theorem claim1_success_page_accounting
    (self : AlpacaRequester) (symbols : List String) (timeframe : String)
    (opts : List (String × String)) (fs : FS) (r0 : Resp) (rest : List Resp)
    (h0 : pageOk r0) (hc : ChainOk r0.next rest) :
    (get_bars self symbols timeframe opts fs (r0 :: rest)).outcome = .ok ∧
    numRequests (get_bars self symbols timeframe opts fs (r0 :: rest)).trace
      = (r0 :: rest).length ∧
    writePaths (get_bars self symbols timeframe opts fs (r0 :: rest)).trace
      = (r0 :: rest).flatMap (pagePaths self.barsPath) := by
  obtain ⟨fs', hrun⟩ := run_success self symbols timeframe opts fs r0 rest h0 hc
  rw [hrun]
  refine ⟨rfl, ?_, ?_⟩
  · simp [numRequests, fullTrace, requestUrls_cons_request,
      requestUrls_cons_tick, requestUrls_append, requestUrls_barsEvs,
      requestUrls_loopTrace _ _ rest r0.next hc,
      tokensOf_length rest r0.next hc]
  · simp [fullTrace, writePaths_cons_request, writePaths_cons_tick,
      writePaths_append, writePaths_barsEvs,
      writePaths_loopTrace _ _ rest r0.next hc, pagePaths]

/-- C1 counterexample: one body token `t0` followed by the absent token is
`n = 0` in the claim, which then asserts exactly `n + 1 = 1` successful
request; the code issues 2 (one per page). -/
theorem claim1_cex :
    numRequests (get_bars self0 ["AAPL"] "1Day" [] fs0
      [pageTok "T0", pageLast]).trace = 2 ∧ (2 : Nat) ≠ 0 + 1 := by
  constructor
  · rfl
  · decide

/-- C1 witness: the amended theorem evaluated on the two-page script. -/
theorem claim1_witness :
    (get_bars self0 ["AAPL"] "1Day" [] fs0 [pageTok "T0", pageLast]).outcome
      = .ok ∧
    numRequests (get_bars self0 ["AAPL"] "1Day" [] fs0
      [pageTok "T0", pageLast]).trace = [pageTok "T0", pageLast].length ∧
    writePaths (get_bars self0 ["AAPL"] "1Day" [] fs0
      [pageTok "T0", pageLast]).trace
      = [pageTok "T0", pageLast].flatMap (pagePaths self0.barsPath) :=
  claim1_success_page_accounting self0 ["AAPL"] "1Day" [] fs0 (pageTok "T0")
    [pageLast] (by decide)
    (ChainOk.cons "T0" pageLast [] (by decide) ChainOk.nil)

/-! ### Claim C8 -/

theorem loopTrace_decomp (tpl base : String) :
    ∀ (script : List Resp) (next : Option String), ChainOk next script →
      ∀ i, i < script.length →
      ∃ pre u post,
        loopTrace tpl base next script = pre ++ Ev.request u :: post ∧
        numRequests pre = i ∧
        writePaths pre = (script.take i).flatMap (pagePaths tpl) := by
  intro script
  induction script with
  | nil => intro next h i hi; simp at hi
  | cons r rest ih =>
    intro next h i hi
    cases h with
    | cons t _ _ hOk hChain =>
      cases i with
      | zero =>
        exact ⟨[], base ++ "&page_token=" ++ t,
          barsEvs tpl (base ++ "&page_token=" ++ t) r.next r.bars
            ++ Ev.pageTick :: loopTrace tpl base r.next rest,
          by simp [loopTrace], rfl, rfl⟩
      | succ i' =>
        obtain ⟨pre, u, post, hEq, hReq, hWr⟩ := ih r.next hChain i'
          (by simpa using hi)
        refine ⟨Ev.request (base ++ "&page_token=" ++ t) ::
          (barsEvs tpl (base ++ "&page_token=" ++ t) r.next r.bars
            ++ Ev.pageTick :: pre), u, post, ?_, ?_, ?_⟩
        · simp [loopTrace, hEq]
        · simp only [numRequests, requestUrls_cons_request,
            requestUrls_append, requestUrls_barsEvs, requestUrls_cons_tick,
            List.nil_append, List.length_cons]
          simp only [numRequests] at hReq
          omega
        · simp only [writePaths_cons_request, writePaths_append,
            writePaths_barsEvs, writePaths_cons_tick, hWr,
            List.take_succ_cons, List.flatMap_cons, pagePaths]

/-- C8: on the all-success path, the request for page `i + 1` is issued only
after every sink write of pages `0 … i`: the trace splits at the
`(i + 2)`-th request event, and the part before it contains exactly the
writes of the first `i + 1` pages (one per table name, in page order), so an
interruption leaves a fully written page prefix. -/
theorem claim8_write_before_next_request
    (self : AlpacaRequester) (symbols : List String) (timeframe : String)
    (opts : List (String × String)) (fs : FS) (r0 : Resp) (rest : List Resp)
    (h0 : pageOk r0) (hc : ChainOk r0.next rest) :
    ∀ i, i + 1 < (r0 :: rest).length →
      ∃ pre u post,
        (get_bars self symbols timeframe opts fs (r0 :: rest)).trace
          = pre ++ Ev.request u :: post ∧
        numRequests pre = i + 1 ∧
        writePaths pre
          = ((r0 :: rest).take (i + 1)).flatMap (pagePaths self.barsPath) := by
  intro i hi
  obtain ⟨fs', hrun⟩ := run_success self symbols timeframe opts fs r0 rest h0 hc
  rw [hrun]
  obtain ⟨pre, u, post, hEq, hReq, hWr⟩ :=
    loopTrace_decomp self.barsPath (baseUrlOf symbols timeframe opts) rest
      r0.next hc i (by simpa using hi)
  refine ⟨Ev.request (initUrlOf symbols timeframe opts) :: Ev.pageTick ::
    (barsEvs self.barsPath (initUrlOf symbols timeframe opts) r0.next r0.bars
      ++ pre), u, post, ?_, ?_, ?_⟩
  · simp [fullTrace, hEq]
  · simp only [numRequests, requestUrls_cons_request, requestUrls_cons_tick,
      requestUrls_append, requestUrls_barsEvs, List.nil_append,
      List.length_cons]
    simp only [numRequests] at hReq
    omega
  · simp only [writePaths_cons_request, writePaths_cons_tick,
      writePaths_append, writePaths_barsEvs, hWr, List.take_succ_cons,
      List.flatMap_cons, pagePaths]

/-- C8 witness: the ordering theorem evaluated on the two-page script at
`i = 0`. -/
theorem claim8_witness :
    ∃ pre u post,
      (get_bars self0 ["AAPL"] "1Day" [] fs0 [pageTok "T0", pageLast]).trace
        = pre ++ Ev.request u :: post ∧
      numRequests pre = 0 + 1 ∧
      writePaths pre = ([pageTok "T0", pageLast].take (0 + 1)).flatMap
        (pagePaths self0.barsPath) :=
  claim8_write_before_next_request self0 ["AAPL"] "1Day" [] fs0 (pageTok "T0")
    [pageLast] (by decide)
    (ChainOk.cons "T0" pageLast [] (by decide) ChainOk.nil) 0 (by decide)

/-! ### Claim C6 -/

theorem string_data_append (a b : String) : (a ++ b).data = a.data ++ b.data :=
  rfl

theorem token_url_inj (base a b : String)
    (h : base ++ "&page_token=" ++ a = base ++ "&page_token=" ++ b) :
    a = b := by
  have hd := congrArg String.data h
  simp only [string_data_append] at hd
  have hd' := List.append_cancel_left hd
  cases a with
  | mk da =>
    cases b with
    | mk db => simp_all

theorem base_ne_token_url (base t : String) :
    base ≠ base ++ "&page_token=" ++ t := by
  intro h
  have hd := congrArg (fun s : String => s.data.length) h
  have h12 : ("&page_token=" : String).data.length = 12 := rfl
  simp only [string_data_append, List.length_append, h12] at hd
  omega

/-- C6: on the all-success path the request URLs are exactly the initial URL
followed by, for each page `N`, the base URL with `page_token` set to the
continuation token extracted from the body of page `N` (the list `tokensOf`
collects the body tokens in consumption order); and when those body tokens
are pairwise distinct and differ from the resume token, no URL is ever
requested twice. -/
theorem claim6_token_threading
    (self : AlpacaRequester) (symbols : List String) (timeframe : String)
    (opts : List (String × String)) (fs : FS) (r0 : Resp) (rest : List Resp)
    (h0 : pageOk r0) (hc : ChainOk r0.next rest) :
    requestUrls (get_bars self symbols timeframe opts fs (r0 :: rest)).trace
      = initUrlOf symbols timeframe opts ::
        (tokensOf r0.next rest).map
          (fun t => baseUrlOf symbols timeframe opts ++ "&page_token=" ++ t) ∧
    ((tokensOf r0.next rest).Nodup →
      (∀ s, lookupStr opts "page_token" = some s →
        s ∉ tokensOf r0.next rest) →
      (requestUrls
        (get_bars self symbols timeframe opts fs (r0 :: rest)).trace).Nodup) := by
  obtain ⟨fs', hrun⟩ := run_success self symbols timeframe opts fs r0 rest h0 hc
  rw [hrun]
  have hurls : requestUrls
      (fullTrace self.barsPath symbols timeframe opts r0 rest)
      = initUrlOf symbols timeframe opts ::
        (tokensOf r0.next rest).map
          (fun t => baseUrlOf symbols timeframe opts ++ "&page_token=" ++ t) := by
    simp only [fullTrace, requestUrls_cons_request, requestUrls_cons_tick,
      requestUrls_append, requestUrls_barsEvs, List.nil_append,
      requestUrls_loopTrace _ _ rest r0.next hc]
  refine ⟨hurls, fun hnd hstart => ?_⟩
  rw [hurls]
  refine List.nodup_cons.mpr ⟨?_, ?_⟩
  · intro hmem
    obtain ⟨t, ht, hEq⟩ := List.mem_map.mp hmem
    unfold initUrlOf at hEq
    cases hlk : lookupStr opts "page_token" with
    | none =>
      rw [hlk] at hEq
      exact base_ne_token_url (baseUrlOf symbols timeframe opts) t hEq.symm
    | some s =>
      rw [hlk] at hEq
      have : s = t := token_url_inj _ s t hEq.symm
      exact hstart s hlk (this ▸ ht)
  · exact hnd.map (fun a b hab => token_url_inj _ a b hab)

/-- C6 witness: the threading theorem evaluated on the two-page script with
distinct tokens and no resume token. -/
theorem claim6_witness :
    requestUrls (get_bars self0 ["AAPL"] "1Day" [] fs0
        [pageTok "T0", pageLast]).trace
      = initUrlOf ["AAPL"] "1Day" [] ::
        (tokensOf (pageTok "T0").next [pageLast]).map
          (fun t => baseUrlOf ["AAPL"] "1Day" [] ++ "&page_token=" ++ t) ∧
    (requestUrls (get_bars self0 ["AAPL"] "1Day" [] fs0
        [pageTok "T0", pageLast]).trace).Nodup := by
  have h := claim6_token_threading self0 ["AAPL"] "1Day" [] fs0 (pageTok "T0")
    [pageLast] (by decide) (ChainOk.cons "T0" pageLast [] (by decide) ChainOk.nil)
  exact ⟨h.1, h.2 (by decide) (by intro s hs; simp [lookupStr] at hs)⟩

/-! ### Claim C4 -/

theorem runLoop_fail (self : AlpacaRequester) (base : String) :
    ∀ (pages : List Resp) (next : Option String) (tLast : String),
      ChainPre next pages (some tLast) →
      ∀ (bad : Resp) (tail : List Resp) (rem rst : Int), rem ≠ 0 →
        bad.status ≠ 200 → ∀ fs : FS,
      ∃ evs fs',
        runLoop self base rem rst next fs (pages ++ bad :: tail) =
          (evs, fs', .err (.valueError (statusMsg bad.status bad.text))) ∧
        numRequests evs = pages.length + 1 := by
  intro pages
  induction pages with
  | nil =>
    intro next tLast h bad tail rem rst hrem hbad fs
    cases h
    refine ⟨[Ev.request (base ++ "&page_token=" ++ tLast)], fs, ?_, rfl⟩
    simp [runLoop, hrem, hbad]
  | cons r rest ih =>
    intro next tLast h bad tail rem rst hrem hbad fs
    cases h with
    | cons t _ _ _ hOk hPre =>
      obtain ⟨hst, hlim, hremH, hrem0, hrst, hbars⟩ := hOk
      obtain ⟨rem', hR⟩ := Option.ne_none_iff_exists'.mp hremH
      obtain ⟨rst', hS⟩ := Option.ne_none_iff_exists'.mp hrst
      have hrem' : rem' ≠ 0 := fun hz => hrem0 (by rw [hR, hz])
      obtain ⟨fs1, outs, hw⟩ :=
        write_bars_ok self.barsPath (base ++ "&page_token=" ++ t) r.next
          r.bars fs hbars
      obtain ⟨evs', fs2, hrec, hcount⟩ :=
        ih r.next tLast hPre bad tail rem' rst' hrem' hbad fs1
      refine ⟨Ev.request (base ++ "&page_token=" ++ t) ::
        (barsEvs self.barsPath (base ++ "&page_token=" ++ t) r.next r.bars
          ++ Ev.pageTick :: evs'), fs2, ?_, ?_⟩
      · simp [runLoop, hrem, hst, hw, hR, hS, hrec]
      · simp only [numRequests, requestUrls_cons_request, requestUrls_append,
          requestUrls_barsEvs, requestUrls_cons_tick, List.nil_append,
          List.length_cons, List.length_append]
        simp only [numRequests] at hcount
        omega

theorem containsStr_statusMsg_403 (text : String) :
    containsStr (statusMsg 403 text) "403" := by
  refine ⟨("Error Status Code " : String).data, ((": " : String) ++ text).data, ?_⟩
  have h403 : (toString (403 : Nat)) = "403" := rfl
  show (statusMsg 403 text).data = _
  simp [statusMsg, string_data_append, h403]

/-- C4: a 403 response is fatal wherever it occurs.  First conjunct: a 403 on
the initial request makes the run raise `ValueError` with a message
containing `"403"` after exactly one request.  Second conjunct: after a
successful first page and any number of further successful pages, a 403 on
the next request makes the run raise `ValueError` with a message containing
`"403"`, and the total request count is the pages fetched plus the one 403
request — no request follows it. -/
theorem claim4_403_fatal :
    (∀ (self : AlpacaRequester) (symbols : List String) (timeframe : String)
        (opts : List (String × String)) (fs : FS) (bad : Resp)
        (tail : List Resp), bad.status = 403 →
      ∃ m,
        (get_bars self symbols timeframe opts fs (bad :: tail)).outcome
          = .err (.valueError m) ∧ containsStr m "403" ∧
        numRequests
          (get_bars self symbols timeframe opts fs (bad :: tail)).trace = 1) ∧
    (∀ (self : AlpacaRequester) (symbols : List String) (timeframe : String)
        (opts : List (String × String)) (fs : FS) (r0 : Resp)
        (grest : List Resp) (tLast : String) (bad : Resp) (tail : List Resp),
      pageOk r0 → ChainPre r0.next grest (some tLast) → bad.status = 403 →
      ∃ m,
        (get_bars self symbols timeframe opts fs
          (r0 :: (grest ++ bad :: tail))).outcome = .err (.valueError m) ∧
        containsStr m "403" ∧
        numRequests (get_bars self symbols timeframe opts fs
          (r0 :: (grest ++ bad :: tail))).trace = grest.length + 2) := by
  constructor
  · intro self symbols timeframe opts fs bad tail hbad
    refine ⟨statusMsg bad.status authText, ?_, ?_, ?_⟩
    · simp [get_bars, hbad]
    · rw [hbad]; exact containsStr_statusMsg_403 authText
    · simp [get_bars, hbad, numRequests, requestUrls]
  · intro self symbols timeframe opts fs r0 grest tLast bad tail h0 hpre hbad
    obtain ⟨hst, hlim, hremH, hrem0, hrst, hbars⟩ := h0
    obtain ⟨lim', hL⟩ := Option.ne_none_iff_exists'.mp hlim
    obtain ⟨rem', hR⟩ := Option.ne_none_iff_exists'.mp hremH
    obtain ⟨rst', hS⟩ := Option.ne_none_iff_exists'.mp hrst
    have hrem' : rem' ≠ 0 := fun hz => hrem0 (by rw [hR, hz])
    obtain ⟨fs1, outs, hw⟩ := write_bars_ok self.barsPath
      (initUrlOf symbols timeframe opts) r0.next r0.bars fs hbars
    obtain ⟨evs', fs2, hrec, hcount⟩ :=
      runLoop_fail self (baseUrlOf symbols timeframe opts) grest r0.next tLast
        hpre bad tail rem' rst' hrem' (by rw [hbad]; decide) fs1
    have hmain : get_bars self symbols timeframe opts fs
        (r0 :: (grest ++ bad :: tail)) =
      ⟨Ev.request (initUrlOf symbols timeframe opts) :: Ev.pageTick ::
          (barsEvs self.barsPath (initUrlOf symbols timeframe opts) r0.next
            r0.bars ++ evs'), fs2,
        .err (.valueError (statusMsg bad.status bad.text)),
        opts.filter (fun kv => kv.1 ≠ "page_token"),
        {self with pbars := 0}⟩ := by
      simp [initUrlOf, baseUrlOf, lookupStr] at hw hrec
      simp [get_bars, hst, hL, hR, hS, hw, hrec, initUrlOf, baseUrlOf,
        lookupStr]
    rw [hmain]
    refine ⟨statusMsg bad.status bad.text, rfl, ?_, ?_⟩
    · rw [hbad]; exact containsStr_statusMsg_403 bad.text
    · simp only [numRequests, requestUrls_cons_request, requestUrls_cons_tick,
        requestUrls_append, requestUrls_barsEvs, List.nil_append,
        List.length_cons]
      simp only [numRequests] at hcount
      omega

/-- C4 witness: both conjuncts evaluated on concrete scripts — a 403 as the
very first response, and a 403 right after one successful page. -/
theorem claim4_witness :
    (∃ m,
      (get_bars self0 ["AAPL"] "1Day" [] fs0
        [⟨403, none, none, none, [], none, "forbidden", 0⟩]).outcome
        = .err (.valueError m) ∧ containsStr m "403" ∧
      numRequests (get_bars self0 ["AAPL"] "1Day" [] fs0
        [⟨403, none, none, none, [], none, "forbidden", 0⟩]).trace = 1) ∧
    (∃ m,
      (get_bars self0 ["AAPL"] "1Day" [] fs0
        [pageTok "T0", ⟨403, none, none, none, [], none, "forbidden", 0⟩]).outcome
        = .err (.valueError m) ∧ containsStr m "403" ∧
      numRequests (get_bars self0 ["AAPL"] "1Day" [] fs0
        [pageTok "T0", ⟨403, none, none, none, [], none, "forbidden", 0⟩]).trace
        = ([] : List Resp).length + 2) :=
  ⟨claim4_403_fatal.1 self0 ["AAPL"] "1Day" [] fs0
      ⟨403, none, none, none, [], none, "forbidden", 0⟩ [] rfl,
    claim4_403_fatal.2 self0 ["AAPL"] "1Day" [] fs0 (pageTok "T0") [] "T0"
      ⟨403, none, none, none, [], none, "forbidden", 0⟩ [] (by decide)
      (ChainPre.nil (some "T0")) rfl⟩

/-! ### Claim C2 -/

theorem lookupStr_filter_ne (opts : List (String × String)) (k : String) :
    lookupStr (opts.filter (fun kv => kv.1 ≠ k)) k = none := by
  have h : (opts.filter (fun kv => kv.1 ≠ k)).find?
      (fun kv => kv.1 = k) = none := by
    rw [List.find?_eq_none]
    intro kv hkv
    have h2 := (List.mem_filter.mp hkv).2
    simp at h2 ⊢
    exact h2
  unfold lookupStr
  rw [h]

theorem filter_page_token_idem (opts : List (String × String)) :
    (opts.filter (fun kv => kv.1 ≠ "page_token")).filter
        (fun kv => kv.1 ≠ "page_token")
      = opts.filter (fun kv => kv.1 ≠ "page_token") := by
  rw [List.filter_filter]
  simp

theorem containsStr_statusMsg_429 (text : String) :
    containsStr (statusMsg 429 text) "429" := by
  refine ⟨("Error Status Code " : String).data,
    ((": " : String) ++ text).data, ?_⟩
  have h429 : (toString (429 : Nat)) = "429" := rfl
  show (statusMsg 429 text).data = _
  simp [statusMsg, string_data_append, h429]

/-- C2 (amended): only a 429 on the initial request is retried.  First
conjunct: on an initial 429 (with rate-limit headers present) the run is the
initial request, a fixed 5-second sleep, then a fresh `get_bars` run on the
remaining script with `page_token` already popped from the options — so no
token is advanced and no page is counted, but the reissued initial URL is the
bare base URL: it equals the original URL exactly when no resume token had
been supplied.  Second conjunct: a 429 on any page after a successful prefix
is fatal — the run raises `ValueError` whose message contains `"429"`. -/
theorem claim2_429_behavior :
    (∀ (self : AlpacaRequester) (symbols : List String) (timeframe : String)
        (opts : List (String × String)) (fs : FS) (r : Resp)
        (rest : List Resp), r.status = 429 → r.limitH ≠ none →
        r.remainingH ≠ none → r.resetH ≠ none →
      get_bars self symbols timeframe opts fs (r :: rest) =
        ⟨Ev.request (initUrlOf symbols timeframe opts) :: Ev.sleep 5 ::
            (get_bars self symbols timeframe
              (opts.filter (fun kv => kv.1 ≠ "page_token")) fs rest).trace,
          (get_bars self symbols timeframe
            (opts.filter (fun kv => kv.1 ≠ "page_token")) fs rest).fs,
          (get_bars self symbols timeframe
            (opts.filter (fun kv => kv.1 ≠ "page_token")) fs rest).outcome,
          (get_bars self symbols timeframe
            (opts.filter (fun kv => kv.1 ≠ "page_token")) fs rest).options,
          (get_bars self symbols timeframe
            (opts.filter (fun kv => kv.1 ≠ "page_token")) fs rest).requester⟩ ∧
        initUrlOf symbols timeframe (opts.filter (fun kv => kv.1 ≠ "page_token"))
          = baseUrlOf symbols timeframe opts ∧
        (lookupStr opts "page_token" = none →
          initUrlOf symbols timeframe opts = baseUrlOf symbols timeframe opts)) ∧
    (∀ (self : AlpacaRequester) (symbols : List String) (timeframe : String)
        (opts : List (String × String)) (fs : FS) (r0 : Resp)
        (grest : List Resp) (tLast : String) (bad : Resp) (tail : List Resp),
      pageOk r0 → ChainPre r0.next grest (some tLast) → bad.status = 429 →
      ∃ m,
        (get_bars self symbols timeframe opts fs
          (r0 :: (grest ++ bad :: tail))).outcome = .err (.valueError m) ∧
        containsStr m "429") := by
  constructor
  · intro self symbols timeframe opts fs r rest hst hlim hremH hrst
    obtain ⟨lim', hL⟩ := Option.ne_none_iff_exists'.mp hlim
    obtain ⟨rem', hR⟩ := Option.ne_none_iff_exists'.mp hremH
    obtain ⟨rst', hS⟩ := Option.ne_none_iff_exists'.mp hrst
    refine ⟨?_, ?_, ?_⟩
    · have h200 : r.status ≠ 200 := by rw [hst]; decide
      simp [get_bars, h200, hst, hL, hR, hS, initUrlOf, baseUrlOf, lookupStr]
    · unfold initUrlOf
      rw [lookupStr_filter_ne]
      unfold baseUrlOf
      rw [filter_page_token_idem]
    · intro hnone
      unfold initUrlOf
      rw [hnone]
  · intro self symbols timeframe opts fs r0 grest tLast bad tail h0 hpre hbad
    obtain ⟨hst, hlim, hremH, hrem0, hrst, hbars⟩ := h0
    obtain ⟨lim', hL⟩ := Option.ne_none_iff_exists'.mp hlim
    obtain ⟨rem', hR⟩ := Option.ne_none_iff_exists'.mp hremH
    obtain ⟨rst', hS⟩ := Option.ne_none_iff_exists'.mp hrst
    have hrem' : rem' ≠ 0 := fun hz => hrem0 (by rw [hR, hz])
    obtain ⟨fs1, outs, hw⟩ := write_bars_ok self.barsPath
      (initUrlOf symbols timeframe opts) r0.next r0.bars fs hbars
    obtain ⟨evs', fs2, hrec, hcount⟩ :=
      runLoop_fail self (baseUrlOf symbols timeframe opts) grest r0.next tLast
        hpre bad tail rem' rst' hrem' (by rw [hbad]; decide) fs1
    refine ⟨statusMsg bad.status bad.text, ?_, ?_⟩
    · simp [initUrlOf, baseUrlOf, lookupStr] at hw hrec
      simp [get_bars, hst, hL, hR, hS, hw, hrec, initUrlOf, baseUrlOf,
        lookupStr]
    · rw [hbad]; exact containsStr_statusMsg_429 bad.text

/-- A 429 response fixture with all rate-limit headers present. -/
def resp429 : Resp := ⟨429, some 200, some 0, some 30, [], none, "rate limited", 0⟩

/-- C2 counterexample: a 429 on the second page (after one successful page)
makes the run raise `ValueError` — the claim's "429 is never treated as
fatal" is false on the code, which special-cases 429 only on the initial
request. -/
theorem claim2_cex :
    (get_bars self0 ["AAPL"] "1Day" [] fs0 [pageTok "T0", resp429]).outcome
      = .err (.valueError "Error Status Code 429: rate limited") ∧
    (get_bars self0 ["AAPL"] "1Day" [] fs0 [pageTok "T0", resp429]).outcome
      ≠ .ok := by
  constructor
  · rfl
  · decide

/-- C2 witness: both conjuncts evaluated concretely — an initial 429 followed
by a successful single-page run, and a loop 429 after one good page. -/
theorem claim2_witness :
    (get_bars self0 ["AAPL"] "1Day" [] fs0 [resp429, pageLast] =
      ⟨Ev.request (initUrlOf ["AAPL"] "1Day" []) :: Ev.sleep 5 ::
          (get_bars self0 ["AAPL"] "1Day"
            (([] : List (String × String)).filter
              (fun kv => kv.1 ≠ "page_token")) fs0 [pageLast]).trace,
        (get_bars self0 ["AAPL"] "1Day"
          (([] : List (String × String)).filter
            (fun kv => kv.1 ≠ "page_token")) fs0 [pageLast]).fs,
        (get_bars self0 ["AAPL"] "1Day"
          (([] : List (String × String)).filter
            (fun kv => kv.1 ≠ "page_token")) fs0 [pageLast]).outcome,
        (get_bars self0 ["AAPL"] "1Day"
          (([] : List (String × String)).filter
            (fun kv => kv.1 ≠ "page_token")) fs0 [pageLast]).options,
        (get_bars self0 ["AAPL"] "1Day"
          (([] : List (String × String)).filter
            (fun kv => kv.1 ≠ "page_token")) fs0 [pageLast]).requester⟩ ∧
      initUrlOf ["AAPL"] "1Day"
          (([] : List (String × String)).filter
            (fun kv => kv.1 ≠ "page_token"))
        = baseUrlOf ["AAPL"] "1Day" [] ∧
      (lookupStr [] "page_token" = none →
        initUrlOf ["AAPL"] "1Day" [] = baseUrlOf ["AAPL"] "1Day" [])) ∧
    (∃ m,
      (get_bars self0 ["AAPL"] "1Day" [] fs0
        [pageTok "T0", resp429]).outcome = .err (.valueError m) ∧
      containsStr m "429") :=
  ⟨claim2_429_behavior.1 self0 ["AAPL"] "1Day" [] fs0 resp429 [pageLast]
      rfl (by decide) (by decide) (by decide),
    claim2_429_behavior.2 self0 ["AAPL"] "1Day" [] fs0 (pageTok "T0") [] "T0"
      resp429 [] (by decide) (ChainPre.nil (some "T0")) rfl⟩

/-! ### Claim C3 -/

/-- C3 (amended): before requesting the next page the loop computes no wait
when `remaining ≠ 0` (the first event is the request), and when
`remaining = 0` it computes exactly `(reset - now) * 0.5` with no clamping to
zero (the first event is a sleep of that amount — negative when `reset` lies
in the past); in particular for `reset = now + 100` the wait is `50`. -/
theorem claim3_wait_policy (self : AlpacaRequester) (base : String)
    (rst : Int) (fs : FS) (r : Resp) (rest : List Resp) (t : String)
    (rem : Int) :
    (rem ≠ 0 →
      (runLoop self base rem rst (some t) fs (r :: rest)).1.head?
        = some (Ev.request (base ++ "&page_token=" ++ t))) ∧
    (rem = 0 →
      (runLoop self base rem rst (some t) fs (r :: rest)).1.head?
        = some (Ev.sleep (((rst : ℚ) - r.tnow) * (1/2)))) ∧
    (rem = 0 → (rst : ℚ) = r.tnow + 100 →
      (runLoop self base rem rst (some t) fs (r :: rest)).1.head?
        = some (Ev.sleep 50)) := by
  have hsleep : rem = 0 →
      (runLoop self base rem rst (some t) fs (r :: rest)).1.head?
        = some (Ev.sleep (((rst : ℚ) - r.tnow) * (1/2))) := by
    intro hrem
    subst hrem
    simp only [runLoop]
    split
    · rfl
    split
    · rfl
    split
    · rfl
    split <;> rfl
  refine ⟨?_, hsleep, ?_⟩
  · intro hrem
    simp only [runLoop]
    rw [if_neg (fun hand => hrem hand.1)]
    rw [if_neg hrem]
    split
    · rfl
    split
    · rfl
    split <;> rfl
  · intro hrem h100
    rw [hsleep hrem]
    have hw : ((rst : ℚ) - r.tnow) * (1/2) = 50 := by rw [h100]; ring
    rw [hw]

/-- A successful page that exhausts the rate budget: `remaining = 0`,
`reset = 0`. -/
def pageRem0 : Resp :=
  ⟨200, some 200, some 0, some 0, [("AAPL", [rec1 "x"])], some "T1", "", 0⟩

/-- A successful final page observed at `time.time() = 10`. -/
def pageLate : Resp :=
  ⟨200, some 200, some 100, some 0, [("AAPL", [rec1 "y"])], none, "", 10⟩

/-- C3 counterexample: with `remaining = 0`, `reset = 0` and the clock at 10,
the loop computes the wait `(0 - 10) * 0.5`, a negative number, passes it to
`time.sleep` and dies on the resulting `ValueError` — the claim's
`max(0, ·)` clamp and "never negative" are false on the code. -/
theorem claim3_cex :
    (runLoop self0 "B" 0 0 (some "T1") fs0 [pageLate]).1
      = [Ev.sleep ((((0 : Int) : ℚ) - pageLate.tnow) * (1/2))] ∧
    (((0 : Int) : ℚ) - pageLate.tnow) * (1/2) < 0 ∧
    (((0 : Int) : ℚ) - pageLate.tnow) * (1/2)
      ≠ max 0 ((((0 : Int) : ℚ) - pageLate.tnow) * (1/2)) ∧
    (runLoop self0 "B" 0 0 (some "T1") fs0 [pageLate]).2.2
      = .err (.valueError "sleep length must be non-negative") := by
  refine ⟨?_, ?_, ?_, ?_⟩
  · simp only [runLoop]
    rw [if_pos ⟨trivial, by norm_num [pageLate]⟩]
    rfl
  · norm_num [pageLate]
  · have hneg : (((0 : Int) : ℚ) - pageLate.tnow) * (1/2) < 0 := by
      norm_num [pageLate]
    intro hEq
    rw [max_eq_left (le_of_lt hneg)] at hEq
    exact absurd (hEq ▸ hneg) (lt_irrefl 0)
  · simp only [runLoop]
    rw [if_pos ⟨trivial, by norm_num [pageLate]⟩]

/-- C3 witness: the wait-policy theorem evaluated with a nonzero budget
(request first, no wait) and with a zero budget at `reset = now + 100`
(a 50-second sleep first). -/
theorem claim3_witness :
    (runLoop self0 "B" 1 100 (some "T") fs0 [pageLast]).1.head?
      = some (Ev.request ("B" ++ "&page_token=" ++ "T")) ∧
    (runLoop self0 "B" 0 100 (some "T") fs0 [pageLast]).1.head?
      = some (Ev.sleep 50) :=
  ⟨(claim3_wait_policy self0 "B" 100 fs0 pageLast [] "T" 1).1 (by decide),
    (claim3_wait_policy self0 "B" 100 fs0 pageLast [] "T" 0).2.2 rfl
      (by simp [pageLast])⟩

/-! ### Claim C5 -/

/-- C5 (amended): a successful (200) response whose rate-limit headers are
absent does not make the fetcher "treat the state as unknown and proceed":
reading the missing `X-RateLimit-Limit` header raises `KeyError` and the run
fails before any sink write. -/
theorem claim5_missing_headers_fail (self : AlpacaRequester)
    (symbols : List String) (timeframe : String)
    (opts : List (String × String)) (fs : FS) (r : Resp) (rest : List Resp)
    (hst : r.status = 200) (hlim : r.limitH = none) :
    (get_bars self symbols timeframe opts fs (r :: rest)).outcome
      = .err (.keyError "X-RateLimit-Limit") ∧
    writePaths (get_bars self symbols timeframe opts fs (r :: rest)).trace
      = [] := by
  constructor
  · simp [get_bars, hst, hlim]
  · simp [get_bars, hst, hlim, writePaths_cons_request, writePaths_cons_tick]
    rfl

/-- A 200 response carrying no rate-limit headers. -/
def respNoHdr : Resp :=
  ⟨200, none, none, none, [("AAPL", [rec1 "x"])], none, "", 0⟩

/-- C5 counterexample: a successful response with absent rate-limit headers
does not proceed — the run fails with `KeyError` on the missing header. -/
theorem claim5_cex :
    (get_bars self0 ["AAPL"] "1Day" [] fs0 [respNoHdr]).outcome ≠ .ok ∧
    (get_bars self0 ["AAPL"] "1Day" [] fs0 [respNoHdr]).outcome
      = .err (.keyError "X-RateLimit-Limit") := by
  constructor
  · decide
  · rfl

/-- C5 witness: the missing-header theorem evaluated on the header-less 200
response. -/
theorem claim5_witness :
    (get_bars self0 ["AAPL"] "1Day" [] fs0 [respNoHdr]).outcome
      = .err (.keyError "X-RateLimit-Limit") ∧
    writePaths (get_bars self0 ["AAPL"] "1Day" [] fs0 [respNoHdr]).trace
      = [] :=
  claim5_missing_headers_fail self0 ["AAPL"] "1Day" [] fs0 respNoHdr [] rfl
    rfl

/-! ### Claim C7 -/

theorem hasKey_iff (r : Record) (k : String) :
    hasKey r k = true ↔ k ∈ recKeys r := by
  simp [hasKey, recKeys, List.any_eq_true, List.mem_map]

theorem recKeys_setField_mem (r : Record) (k : String) (v : Val)
    (h : k ∈ recKeys r) : recKeys (setField r k v) = recKeys r := by
  unfold setField
  rw [if_pos ((hasKey_iff r k).mpr h)]
  unfold recKeys
  rw [List.map_map]
  refine List.map_congr_left ?_
  intro kv _
  by_cases hk : kv.1 = k
  · simp [hk]
  · simp [hk]

theorem recKeys_setField_not_mem (r : Record) (k : String) (v : Val)
    (h : k ∉ recKeys r) : recKeys (setField r k v) = recKeys r ++ [k] := by
  unfold setField
  rw [if_neg (fun hh => h ((hasKey_iff r k).mp hh))]
  unfold recKeys
  rw [List.map_append]
  rfl

theorem recKeys_augmentRec (url : String) (tok : Option String) (r : Record)
    (ht : "t" ∈ recKeys r) (hu : "url" ∉ recKeys r)
    (hn : "next_page_token" ∉ recKeys r) :
    recKeys (augmentRec url tok r)
      = recKeys r ++ ["url", "next_page_token"] := by
  have h1 : recKeys (setField r "t" (toDatetime (getField r "t")))
      = recKeys r := recKeys_setField_mem r "t" _ ht
  have h2 : recKeys (setField (setField r "t" (toDatetime (getField r "t")))
      "url" (Val.s url)) = recKeys r ++ ["url"] := by
    rw [recKeys_setField_not_mem _ _ _ (by rw [h1]; exact hu), h1]
  unfold augmentRec
  rw [recKeys_setField_not_mem _ _ _ (by rw [h2]; simp [hn]), h2,
    List.append_assoc]
  rfl

/-- C7: a successful per-table sink write (`writeTicker`, the body of the
`write_bars` loop).  Under the shape preconditions (a nonempty table whose
records carry a `t` field and no `url`/`next_page_token` field yet) it
succeeds, appends to the CSV at `bars_path.format(ticker)` exactly the
table's records augmented with exactly the two provenance fields `url` and
`next_page_token` (in that order, after the original fields), writes a header
row iff the target file is missing or empty (appending headerless
otherwise), and touches no other file. -/
theorem claim7_sink_write (fs : FS) (tpl url : String) (tok : Option String)
    (tk : String) (es : List Record) (hne : es ≠ [])
    (ht : ∀ r ∈ es, "t" ∈ recKeys r) (hu : ∀ r ∈ es, "url" ∉ recKeys r)
    (hn : ∀ r ∈ es, "next_page_token" ∉ recKeys r) :
    ∃ fs' out, writeTicker fs tpl url tok tk es =
      (fs', [Ev.write (formatPath tpl tk) (es.map (augmentRec url tok))],
        Except.ok out) ∧
    fs' (formatPath tpl tk) =
      (if fs (formatPath tpl tk) = [] then
        Line.header (dfCols (es.map (augmentRec url tok))) ::
          (es.map (augmentRec url tok)).map (fun r =>
            Line.row ((dfCols (es.map (augmentRec url tok))).map
              (fun c => getField r c)))
      else fs (formatPath tpl tk) ++
          (es.map (augmentRec url tok)).map (fun r =>
            Line.row ((dfCols (es.map (augmentRec url tok))).map
              (fun c => getField r c)))) ∧
    (∀ p, p ≠ formatPath tpl tk → fs' p = fs p) ∧
    (∀ r ∈ es, recKeys (augmentRec url tok r)
      = recKeys r ++ ["url", "next_page_token"]) := by
  have hcol : hasCol es "t" = true := by
    cases es with
    | nil => exact absurd rfl hne
    | cons e es' =>
      simp only [hasCol, List.any_cons, Bool.or_eq_true]
      exact Or.inl ((hasKey_iff e "t").mpr (ht e (by simp)))
  cases es with
  | nil => exact absurd rfl hne
  | cons e es' =>
    obtain ⟨fs', out, hEq⟩ := writeTicker_ok fs tpl url tok tk (e :: es') hcol
    have hEq' := hEq
    simp only [writeTicker, hcol, Bool.true_eq_false, if_false,
      List.map_cons] at hEq'
    injection hEq' with h1 h23
    refine ⟨fs', out, hEq, ?_, ?_, ?_⟩
    · rw [← h1]
      simp only [if_pos rfl]
      by_cases hEmp : fs (formatPath tpl tk) = []
      · rw [if_pos hEmp]
        have hb : (fs (formatPath tpl tk)).isEmpty = true :=
          List.isEmpty_iff.mpr hEmp
        simp [hb]
      · rw [if_neg hEmp]
        have hb : (fs (formatPath tpl tk)).isEmpty = false := by
          rw [Bool.eq_false_iff]
          intro hT
          exact hEmp (List.isEmpty_iff.mp hT)
        simp [hb]
    · intro p hp
      rw [← h1]
      simp [if_neg hp]
    · intro r hr
      exact recKeys_augmentRec url tok r (ht r hr) (hu r hr) (hn r hr)

/-- C7 witness: the sink-write theorem evaluated on a concrete one-record
table against the empty store (header row) — the preconditions hold by
computation. -/
theorem claim7_witness :
    ∃ fs' out, writeTicker fs0 "bars/\x7b\x7d.csv" "u" (some "N") "AAPL"
        [rec1 "2024"] =
      (fs', [Ev.write (formatPath "bars/\x7b\x7d.csv" "AAPL")
          ([rec1 "2024"].map (augmentRec "u" (some "N")))], Except.ok out) ∧
    fs' (formatPath "bars/\x7b\x7d.csv" "AAPL") =
      (if fs0 (formatPath "bars/\x7b\x7d.csv" "AAPL") = [] then
        Line.header (dfCols ([rec1 "2024"].map (augmentRec "u" (some "N")))) ::
          ([rec1 "2024"].map (augmentRec "u" (some "N"))).map (fun r =>
            Line.row ((dfCols ([rec1 "2024"].map
              (augmentRec "u" (some "N")))).map (fun c => getField r c)))
      else fs0 (formatPath "bars/\x7b\x7d.csv" "AAPL") ++
          ([rec1 "2024"].map (augmentRec "u" (some "N"))).map (fun r =>
            Line.row ((dfCols ([rec1 "2024"].map
              (augmentRec "u" (some "N")))).map (fun c => getField r c)))) ∧
    (∀ p, p ≠ formatPath "bars/\x7b\x7d.csv" "AAPL" → fs' p = fs0 p) ∧
    (∀ r ∈ [rec1 "2024"], recKeys (augmentRec "u" (some "N") r)
      = recKeys r ++ ["url", "next_page_token"]) :=
  claim7_sink_write fs0 "bars/\x7b\x7d.csv" "u" (some "N") "AAPL"
    [rec1 "2024"] (by decide) (by decide) (by decide) (by decide)

/-! ### Claim C9 -/

theorem writeTicker_nil (fs : FS) (tpl url : String) (tok : Option String)
    (tk : String) :
    writeTicker fs tpl url tok tk [] = (fs, [], .error (.keyError "t")) := rfl

theorem writeTicker_ok_hasCol (fs : FS) (tpl url : String)
    (tok : Option String) (tk : String) (es : List Record) (fs1 : FS)
    (evs : List Ev) (out : TickerOut)
    (h : writeTicker fs tpl url tok tk es = (fs1, evs, .ok out)) :
    hasCol es "t" = true := by
  by_cases hc : hasCol es "t" = true
  · exact hc
  · exfalso
    have hc' : hasCol es "t" = false := by
      cases hb : hasCol es "t"
      · rfl
      · exact absurd hb hc
    unfold writeTicker at h
    rw [if_pos hc'] at h
    simp at h

theorem hasCol_ne_nil {es : List Record} (h : hasCol es "t" = true) :
    es ≠ [] := by
  intro hE
  subst hE
  simp [hasCol] at h

/-- C9: `write_bars` requires every named table on the page to be nonempty.
First conjunct: if some ticker maps to an empty record list, `write_bars`
raises an error (the data frame built from no records has no `t` column, so
the `df['t']` access raises before the empty-frame `iloc` indexing could).
Second conjunct: whenever `write_bars` returns successfully, every table on
the page was nonempty. -/
theorem claim9_empty_table_error (tpl url : String) (tok : Option String) :
    ∀ (bars : List (String × List Record)) (fs : FS),
    ((∃ tk, (tk, ([] : List Record)) ∈ bars) →
      ∃ e, (write_bars fs tpl bars url tok).2.2 = Except.error e) ∧
    (∀ outs, (write_bars fs tpl bars url tok).2.2 = Except.ok outs →
      ∀ p ∈ bars, p.2 ≠ []) := by
  intro bars
  induction bars with
  | nil =>
    intro fs
    refine ⟨fun ⟨tk, hmem⟩ => absurd hmem (List.not_mem_nil _), ?_⟩
    intro outs _ p hp
    exact absurd hp (List.not_mem_nil _)
  | cons q rest ih =>
    intro fs
    obtain ⟨tk0, es0⟩ := q
    rcases hWT : writeTicker fs tpl url tok tk0 es0 with ⟨fs1, evs1, res⟩
    cases res with
    | error e =>
      constructor
      · intro _
        exact ⟨e, by simp [write_bars, hWT]⟩
      · intro outs houts
        simp [write_bars, hWT] at houts
    | ok out =>
      have hcol := writeTicker_ok_hasCol fs tpl url tok tk0 es0 fs1 evs1 out hWT
      constructor
      · rintro ⟨tk, hmem⟩
        rcases List.mem_cons.mp hmem with hHead | hTail
        · exfalso
          have hEs : es0 = [] := (Prod.mk.injEq _ _ _ _ |>.mp hHead.symm).2
          rw [hEs] at hcol
          simp [hasCol] at hcol
        · obtain ⟨e, hrec⟩ := (ih fs1).1 ⟨tk, hTail⟩
          refine ⟨e, ?_⟩
          simp only [write_bars, hWT]
          rcases hRec : write_bars fs1 tpl rest url tok with ⟨fs2, evs2, res2⟩
          rw [hRec] at hrec
          simp at hrec
          simp [hrec]
          rfl
      · intro outs houts p hp
        rcases List.mem_cons.mp hp with hHead | hTail
        · rw [hHead]
          exact hasCol_ne_nil hcol
        · rcases hRec : write_bars fs1 tpl rest url tok with ⟨fs2, evs2, res2⟩
          cases res2 with
          | error e =>
            exfalso
            simp [write_bars, hWT, hRec, Except.map] at houts
          | ok outs2 =>
            exact (ih fs1).2 outs2 (by rw [hRec]) p hTail

/-- C9 witness: a page mapping one ticker to an empty table makes
`write_bars` raise, and the success precondition evaluated on a good page. -/
theorem claim9_witness :
    (∃ e, (write_bars fs0 "bars/\x7b\x7d.csv"
      [("AAPL", ([] : List Record))] "u" none).2.2 = Except.error e) :=
  (claim9_empty_table_error "bars/\x7b\x7d.csv" "u" none
    [("AAPL", ([] : List Record))] fs0).1 ⟨"AAPL", by simp⟩

/-! ### Claim C10 -/

theorem filter_key_idem (opts : List (String × String)) (k : String) :
    (opts.filter (fun kv => kv.1 ≠ k)).filter (fun kv => kv.1 ≠ k)
      = opts.filter (fun kv => kv.1 ≠ k) := by
  rw [List.filter_filter]
  simp

theorem get_bars_frame (self : AlpacaRequester) (symbols : List String)
    (timeframe : String) :
    ∀ (script : List Resp) (opts : List (String × String)) (fs : FS),
      (get_bars self symbols timeframe opts fs script).options
        = opts.filter (fun kv => kv.1 ≠ "page_token") ∧
      (get_bars self symbols timeframe opts fs script).requester
        = {self with pbars := 0} := by
  intro script
  induction script with
  | nil => intro opts fs; exact ⟨rfl, rfl⟩
  | cons r rest ih =>
    intro opts fs
    by_cases h200 : r.status = 200
    · rcases hL : r.limitH with _ | lim
      · constructor <;> simp [get_bars, h200, hL]
      · rcases hR : r.remainingH with _ | rem
        · constructor <;> simp [get_bars, h200, hL, hR]
        · rcases hS : r.resetH with _ | rst
          · constructor <;> simp [get_bars, h200, hL, hR, hS]
          · rcases hW : write_bars fs self.barsPath r.bars
                (initUrlOf symbols timeframe opts) r.next with ⟨fs1, evs1, res⟩
            simp [initUrlOf, baseUrlOf, lookupStr] at hW
            cases res with
            | error e =>
              constructor <;> simp [get_bars, h200, hL, hR, hS, hW, lookupStr]
            | ok outs =>
              constructor <;> simp [get_bars, h200, hL, hR, hS, hW, lookupStr]
    · by_cases h429 : r.status = 429
      · rcases hL : r.limitH with _ | lim
        · constructor <;> simp [get_bars, h200, h429, hL]
        · rcases hR : r.remainingH with _ | rem
          · constructor <;> simp [get_bars, h200, h429, hL, hR]
          · rcases hS : r.resetH with _ | rst
            · constructor <;> simp [get_bars, h200, h429, hL, hR, hS]
            · have hih := ih (opts.filter (fun kv => kv.1 ≠ "page_token")) fs
              rw [filter_key_idem] at hih
              simp at hih
              constructor
              · simp [get_bars, h200, h429, hL, hR, hS, hih.1]
              · simp [get_bars, h200, h429, hL, hR, hS, hih.2]
      · by_cases h403 : r.status = 403
        · constructor <;> simp [get_bars, h200, h429, h403]
        · constructor <;> simp [get_bars, h200, h429, h403]

theorem make_bars_url_sort_local (symbols : List String) (timeframe : String)
    (kwargs : List (String × String)) :
    make_bars_url symbols timeframe kwargs
      = make_bars_url symbols timeframe
          (kwargs.filter (fun kv => kv.1 ≠ "sort")) := by
  have hlim : (kwargs.filter (fun kv => kv.1 ≠ "sort")).any
      (fun kv => kv.1 = "limit") = kwargs.any (fun kv => kv.1 = "limit") := by
    induction kwargs with
    | nil => rfl
    | cons kv rest ih =>
      by_cases h : kv.1 = "sort"
      · rw [List.filter_cons_of_neg (by simp [h]), List.any_cons, ih]
        have hkl : (decide (kv.1 = "limit")) = false := by simp [h]
        rw [hkl, Bool.false_or]
      · rw [List.filter_cons_of_pos (by simp [h]), List.any_cons, ih,
          List.any_cons]
  simp only [make_bars_url]
  rw [hlim]
  by_cases hl : kwargs.any (fun kv => kv.1 = "limit") = true
  · rw [if_pos hl, if_pos hl, filter_key_idem]
  · rw [if_neg hl, if_neg hl, List.filter_append, List.filter_append,
      filter_key_idem]

/-- C10 (amended): `get_bars` removes `page_token` from the caller's options
mapping as a side effect, but `make_bars_url` pops `sort` only from its own
copied keyword arguments — the URL it builds ignores any `sort` entry, and a
`sort` entry in the caller's mapping survives the run; all requester fields
other than the progress-bar set are left unchanged (the progress-bar set is
emptied on exit). -/
theorem claim10_frame (self : AlpacaRequester) (symbols : List String)
    (timeframe : String) (opts : List (String × String)) (fs : FS)
    (script : List Resp) (kwargs : List (String × String)) :
    (get_bars self symbols timeframe opts fs script).options
      = opts.filter (fun kv => kv.1 ≠ "page_token") ∧
    (∀ v, ("sort", v) ∈ opts →
      ("sort", v) ∈ (get_bars self symbols timeframe opts fs script).options) ∧
    make_bars_url symbols timeframe kwargs
      = make_bars_url symbols timeframe
          (kwargs.filter (fun kv => kv.1 ≠ "sort")) ∧
    (get_bars self symbols timeframe opts fs script).requester.apiKey
      = self.apiKey ∧
    (get_bars self symbols timeframe opts fs script).requester.apiSecret
      = self.apiSecret ∧
    (get_bars self symbols timeframe opts fs script).requester.authHeaders
      = self.authHeaders ∧
    (get_bars self symbols timeframe opts fs script).requester.barsPath
      = self.barsPath := by
  obtain ⟨hopt, hreq⟩ := get_bars_frame self symbols timeframe script opts fs
  refine ⟨hopt, ?_, make_bars_url_sort_local symbols timeframe kwargs,
    by rw [hreq], by rw [hreq], by rw [hreq], by rw [hreq]⟩
  intro v hv
  rw [hopt]
  rw [List.mem_filter]
  exact ⟨hv, rfl⟩

/-- C10 counterexample: after a run whose options carried both `page_token`
and `sort`, the caller's mapping has lost `page_token` but still contains
`sort` — `make_bars_url` did not remove `sort` from the caller's mapping,
because Python's `**kwargs` is a fresh dict. -/
theorem claim10_cex :
    ("sort", "asc") ∈ (get_bars self0 ["AAPL"] "1Day"
      [("page_token", "x"), ("sort", "asc")] fs0
      [⟨403, none, none, none, [], none, "f", 0⟩]).options ∧
    ("page_token", "x") ∉ (get_bars self0 ["AAPL"] "1Day"
      [("page_token", "x"), ("sort", "asc")] fs0
      [⟨403, none, none, none, [], none, "f", 0⟩]).options := by
  constructor
  · decide
  · decide

/-- C10 witness: the frame theorem evaluated on a concrete run whose options
carry a `sort` entry. -/
theorem claim10_witness :
    (get_bars self0 ["AAPL"] "1Day" [("sort", "asc")] fs0
      [⟨403, none, none, none, [], none, "f", 0⟩]).options
      = [("sort", "asc")].filter (fun kv => kv.1 ≠ "page_token") ∧
    ("sort", "asc") ∈ (get_bars self0 ["AAPL"] "1Day" [("sort", "asc")] fs0
      [⟨403, none, none, none, [], none, "f", 0⟩]).options ∧
    (get_bars self0 ["AAPL"] "1Day" [("sort", "asc")] fs0
      [⟨403, none, none, none, [], none, "f", 0⟩]).requester.apiKey
      = self0.apiKey :=
  have h := claim10_frame self0 ["AAPL"] "1Day" [("sort", "asc")] fs0
    [⟨403, none, none, none, [], none, "f", 0⟩] [("sort", "asc")]
  ⟨h.1, h.2.1 "asc" (by decide), h.2.2.2.1⟩

end AlpacaApi
